import Mathlib

/-!
Shallow embedding of the `@spirex/matcher` evaluation engine
(the stack-based `matcher` factory: context stack, case slot,
guard dispatch, branch forwarding, unwrap and resolve) together
with theorems settling the specification claims.

Modelling conventions:
* JavaScript primitive values are modelled by `JSVal`; numbers are
  integer-valued with `nan` and `negZero` as distinguished values so
  that `Object.is` (here: decidable equality on `JSVal`) treats `NaN`
  as self-equal and `+0` / `-0` as distinct.
* A JavaScript record (plain object) is an association list
  `Rec`; property lookup yields `JSVal.undefined` for a missing key,
  as in JavaScript.
* The mutable evaluator produced by `matcher(context)` is modelled as
  an explicit state `MState` (case slot, context stack with the top
  layer at the head of the list, and the original caller argument).
* A chain of method calls on the evaluator is a deep-embedded
  `Program`; caller-supplied predicates, selectors, mappers and merge
  delegates are Lean functions, while branch delegates (which receive
  the evaluator itself) are nested `Program` values.
-/

/-- A JavaScript primitive value. `nan` and `negZero` are separate from
`number` so that identity equality (`Object.is`, here decidable equality)
distinguishes them the way JavaScript does: `NaN` is identical to itself,
`-0` differs from `+0` (which is `number 0`). -/
inductive JSVal where
  | undefined
  | null
  | boolean (b : Bool)
  | number (n : Int)
  | nan
  | negZero
  | string (s : String)
  deriving DecidableEq, Repr

/-- Truthiness of a value, as used by JavaScript conditions: `undefined`,
`null`, `false`, `0`, `-0`, `NaN` and the empty string are falsy. -/
def JSVal.truthy : JSVal → Bool
  | .undefined => false
  | .null => false
  | .boolean b => b
  | .number n => n != 0
  | .nan => false
  | .negZero => false
  | .string s => s ≠ ""

/-- The result of the JavaScript `typeof` operator on a primitive value.
Note that `typeof null` is the string "object". -/
def JSVal.typeofStr : JSVal → String
  | .undefined => "undefined"
  | .null => "object"
  | .boolean _ => "boolean"
  | .number _ => "number"
  | .nan => "number"
  | .negZero => "number"
  | .string _ => "string"

/-- Coercion of a value to a property key, as JavaScript performs when a
value is used in bracket indexing (`map[key]`). -/
def JSVal.keyStr : JSVal → String
  | .undefined => "undefined"
  | .null => "null"
  | .boolean true => "true"
  | .boolean false => "false"
  | .number n => toString n
  | .nan => "NaN"
  | .negZero => "0"
  | .string s => s

/-- A JavaScript record (plain object): an association list from property
names to values. The first binding of a key wins on lookup. -/
abbrev Rec := List (String × JSVal)

/-- Property read `r[k]`: the bound value, or `undefined` for a missing
key, as in JavaScript. -/
def recGet (r : Rec) (k : String) : JSVal :=
  match r.find? (fun p => p.1 = k) with
  | some p => p.2
  | none => JSVal.undefined

/-- Whether a record declares the key `k`. -/
def recHas (r : Rec) (k : String) : Bool :=
  (r.find? (fun p => p.1 = k)).isSome

/-- Shallow merge `Object.assign({}, a, b)` (equivalently the spread
`\x7b...a, ...b\x7d`): the keys of `b` take precedence, non-overlapping
keys of both sides are preserved, and a fresh record is produced. -/
def recMerge (a b : Rec) : Rec :=
  a.filter (fun p => (b.find? (fun q => q.1 = p.1)).isNone) ++ b

/-- A leaf of a structural pattern: either a literal primitive value,
compared with the context value by `Object.is`, or a comparator, that is
an object for which `checkIsComparator` holds in the source (truthy, of
object type, exposing a `test` function); its `test` function is modelled
directly, returning a value whose truthiness decides the leaf. -/
inductive PatLeaf where
  | lit (v : JSVal)
  | cmp (t : JSVal → JSVal)

/-- A structural pattern: a record whose values are pattern leaves.
`Object.keys` of the pattern is the list of declared keys. -/
abbrev Pattern := List (String × PatLeaf)

/-- A guard value passed as the first argument of `matchCase`, organised
by the runtime shape that the `typeof` dispatch in the source inspects:
a primitive value (anything whose `typeof` is not "function", including
booleans and `null`), a predicate function, or a non-null object, which
is a structural pattern record. -/
inductive Guard where
  | val (v : JSVal)
  | fpred (p : Rec → JSVal)
  | pattern (ps : Pattern)

/-- A merge delegate passed to `unwrap`: receives the current top context
and the parent context. The parent argument is `none` exactly when the
engine passes the original caller argument and the caller supplied no
context (JavaScript `undefined`). -/
abbrev MergeD := Rec → Option Rec → Rec

/-- The evaluator state created by `matcher(context)` and threaded through
every chained call: the case slot `matchedCase` (initially `undefined`),
the context stack with the top layer at the head of the list (initially
one layer, the caller context or an empty record), and the original
caller argument `origCtx`, which `unwrap` consults at root scope. -/
structure MState where
  matchedCase : JSVal
  stack : List Rec
  origCtx : Option Rec
  deriving DecidableEq

/-- The factory `matcher(context)`: case slot unset, one context layer
holding `context || \x7b\x7d`. -/
def matcher (context : Option Rec) : MState :=
  { matchedCase := JSVal.undefined
    stack := [context.getD []]
    origCtx := context }

/-- The source helper `getContext()` with the default index 1: the top
layer of the context stack. -/
def topCtx (s : MState) : Rec := s.stack.headD []

/-- The source helper `updateContext(c)` with the default index 1:
replace the top layer. On an empty stack the JavaScript assignment at
index -1 leaves the array elements unchanged. -/
def setTop (st : List Rec) (c : Rec) : List Rec :=
  match st with
  | [] => []
  | _ :: rest => c :: rest

mutual

/-- A case target: the second argument of `matchCase` and the values of a
`selectCase` case map. A function is a branch delegate (a nested chain of
calls on the same evaluator); any other value is a case key. -/
inductive CaseTarget where
  | key (k : JSVal)
  | branch (body : Program)

/-- A `selectCase` case map: an association list from keys to case
targets. -/
inductive CaseMap where
  | nil
  | cons (k : String) (t : CaseTarget) (rest : CaseMap)

/-- One chained call on the evaluator. `withContext` takes the extension
record or `none` for `null`/`undefined`; `unwrapOp` records an `unwrap`
call inside a chain (its return value is given by `unwrapFn` below). -/
inductive Op where
  | withContext (ext : Option Rec)
  | mapContext (f : Rec → Rec)
  | forward (body : Program)
  | unwrapOp (d : Option MergeD)
  | matchCase (g : Guard) (t : CaseTarget)
  | selectCase (sel : Rec → JSVal) (cm : Option CaseMap)
  | otherwise (k : JSVal)

/-- A chain of calls on the evaluator, executed left to right. -/
inductive Program where
  | nil
  | cons (op : Op) (rest : Program)

end

/-- Truthiness of a case-map entry or match target, as tested by
`if (caseKey)` in `selectCase` after the map lookup: a function is always
truthy, a primitive by `JSVal.truthy`. -/
def targetTruthy : CaseTarget → Bool
  | .key k => k.truthy
  | .branch _ => true

/-- Whether a single pattern leaf accepts the context value at its key:
`checkIsComparator(valuePattern) ? valuePattern.test(ctx[key])
: Object.is(ctx[key], valuePattern)`. -/
def patLeafTest (ctx : Rec) (k : String) (leaf : PatLeaf) : Bool :=
  match leaf with
  | .cmp t => (t (recGet ctx k)).truthy
  | .lit v => recGet ctx k = v

/-- The write performed by `unwrap`: `updateContext(newContext, index)`
where the index is 2 inside a branch and 1 at root. -/
def unwrapWrite (st : List Rec) (c : Rec) : List Rec :=
  match st with
  | a :: _ :: rest => a :: c :: rest
  | other => setTop other c

/-- The source `unwrap(delegate)`: reads the top context; with a delegate,
replaces it by `delegate(current, parent)` where the parent is the layer
below the top inside a branch, and the original caller argument at root;
writes the result at index 2 inside a branch (the parent layer) and at
index 1 at root; returns the written value. The pair holds the returned
value and the updated state. -/
def unwrapFn (s : MState) (d : Option MergeD) : Rec × MState :=
  match s.stack with
  | a :: b :: rest =>
      let r := match d with
        | none => a
        | some f => f a (some b)
      (r, { s with stack := a :: r :: rest })
  | _ =>
      let a := topCtx s
      let r := match d with
        | none => a
        | some f => f a s.origCtx
      (r, { s with stack := setTop s.stack r })

mutual

/-- Execution of a chain of calls, threading the evaluator state. -/
def runProg : Program → MState → MState
  | .nil, s => s
  | .cons op rest, s => runProg rest (runOp op s)
termination_by structural p => p

/-- Execution of one chained call, translated from the returned object of
the stack-based `matcher` factory. -/
def runOp : Op → MState → MState
  | .withContext ext, s =>
      match ext with
      | some delta => { s with stack := setTop s.stack (recMerge (topCtx s) delta) }
      | none => s
  | .mapContext f, s => { s with stack := setTop s.stack (f (topCtx s)) }
  | .forward body, s =>
      if s.matchedCase.truthy then s
      else
        let s1 := runProg body { s with stack := topCtx s :: s.stack }
        { s1 with stack := s1.stack.tail }
  | .unwrapOp d, s => (unwrapFn s d).2
  | .matchCase g t, s =>
      if s.matchedCase.truthy then s
      else
        match g with
        | .val v =>
            if v.typeofStr = "boolean" ∧ v.truthy then applyMatchedCase t s
            else if v.typeofStr = "object" then s
            else s
        | .fpred p =>
            if (p (topCtx s)).truthy then applyMatchedCase t s else s
        | .pattern ps =>
            if ps.length > 0 then
              if ps.all (fun kl => patLeafTest (topCtx s) kl.1 kl.2) then
                applyMatchedCase t s
              else s
            else applyMatchedCase t s
  | .selectCase sel cm, s =>
      if s.matchedCase.truthy then s
      else
        if (sel (topCtx s)).truthy then
          match cm with
          | some m => selectFromMap m (sel (topCtx s)).keyStr s
          | none => { s with matchedCase := sel (topCtx s) }
        else s
  | .otherwise k, s =>
      if s.matchedCase.truthy then s else { s with matchedCase := k }
termination_by structural op => op

/-- The source `applyMatchedCase(caseOrBranch)`: a function is a branch
delegate, so a copy of the top context layer is pushed, the delegate body
runs on the same evaluator, and the layer is popped; any other value is
written to the case slot. -/
def applyMatchedCase : CaseTarget → MState → MState
  | .key k, s => { s with matchedCase := k }
  | .branch body, s =>
      let s1 := runProg body { s with stack := topCtx s :: s.stack }
      { s1 with stack := s1.stack.tail }
termination_by structural t => t

/-- The `selectCase` case-map lookup followed by `if (caseKey)
applyMatchedCase(caseKey)`: an absent or falsy entry commits nothing. -/
def selectFromMap : CaseMap → String → MState → MState
  | .nil, _, s => s
  | .cons k t rest, key, s =>
      if k = key then
        if targetTruthy t then applyMatchedCase t s else s
      else selectFromMap rest key s
termination_by structural cm _ => cm

end

/-- The source `matchCasePattern(pattern, resultCase)` for a non-null
pattern record: an empty pattern always matches; a non-empty pattern
matches when every declared key passes `patLeafTest` against the current
top context; on a match the case target is applied via
`applyMatchedCase`. The null pattern is dispatched as
`Guard.val JSVal.null` and never reaches this function. The same code is
inlined in the pattern arm of `runOp`. -/
def matchCasePattern (ps : Pattern) (t : CaseTarget) (s : MState) : MState :=
  if ps.length > 0 then
    if ps.all (fun kl => patLeafTest (topCtx s) kl.1 kl.2) then
      applyMatchedCase t s
    else s
  else applyMatchedCase t s

/-- An entry of a `resolve` result map, or the fallback argument: a plain
value, or a resolver function receiving the current context and the
committed case key. -/
inductive ResolveEntry where
  | val (v : JSVal)
  | fn (f : Rec → JSVal → JSVal)

/-- A `resolve` result map. -/
abbrev ResolveMap := List (String × ResolveEntry)

/-- Truthiness of a result-map entry, as tested by the
`resultMap[matchedCase] || fallback` step: functions are truthy. -/
def entryTruthy : ResolveEntry → Bool
  | .val v => v.truthy
  | .fn _ => true

/-- The source `resolve(resultMap, fallback)`: without a map, the case
slot is returned; with a map, the entry at the committed key (or, when
that entry is absent or falsy, the fallback) is selected, and a function
entry is invoked with the current context and the committed key. An
absent fallback is the JavaScript `undefined`, modelled as
`ResolveEntry.val JSVal.undefined`. -/
def resolve (s : MState) (resultMap : Option ResolveMap) (fallback : ResolveEntry) : JSVal :=
  match resultMap with
  | none => s.matchedCase
  | some m =>
      let entry := match m.find? (fun p => p.1 = s.matchedCase.keyStr) with
        | some p => p.2
        | none => ResolveEntry.val JSVal.undefined
      let chosen := if entryTruthy entry then entry else fallback
      match chosen with
      | .val v => v
      | .fn f => f (topCtx s) s.matchedCase

/-!
Helper notions used by several claim theorems.
-/

/-- Whether one chained call is something other than an `unwrap` call.
Only a direct `unwrap` in a branch body can write into the parent layer
of that branch; `unwrap` calls nested in deeper branches cannot. -/
def opNotUnwrap : Op → Bool
  | .unwrapOp _ => false
  | _ => true

/-- Whether a chain contains no direct `unwrap` call (deeper branch
bodies inside the chain may still contain `unwrap`). -/
def progNoUnwrap : Program → Bool
  | .nil => true
  | .cons op rest => opNotUnwrap op && progNoUnwrap rest

/-- Lookup in a `selectCase` case map, mirroring the JavaScript property
read `caseMap[caseKey]`: `none` is an absent entry (`undefined`). -/
def caseMapFind : CaseMap → String → Option CaseTarget
  | .nil, _ => none
  | .cons k t rest, key => if k = key then some t else caseMapFind rest key

/-- The frame that every operation preserves: the stack depth, every
stack layer strictly below the top two, and the recorded original caller
argument. -/
def StackFrame (s1 s0 : MState) : Prop :=
  s1.stack.length = s0.stack.length ∧
  s1.stack.drop 2 = s0.stack.drop 2 ∧
  s1.origCtx = s0.origCtx

theorem StackFrame.refl (s : MState) : StackFrame s s := ⟨rfl, rfl, rfl⟩

theorem StackFrame.trans {s2 s1 s0 : MState}
    (h2 : StackFrame s2 s1) (h1 : StackFrame s1 s0) : StackFrame s2 s0 :=
  ⟨h2.1.trans h1.1, h2.2.1.trans h1.2.1, h2.2.2.trans h1.2.2⟩

theorem stackFrame_matched (s : MState) (k : JSVal) :
    StackFrame { s with matchedCase := k } s := ⟨rfl, rfl, rfl⟩

theorem stackFrame_setTop (s : MState) (c : Rec) :
    StackFrame { s with stack := setTop s.stack c } s := by
  refine ⟨?_, ?_, rfl⟩ <;> cases h : s.stack <;> simp [setTop]

theorem stackFrame_popPush {s1 : MState} (s : MState)
    (h : StackFrame s1 { s with stack := topCtx s :: s.stack }) :
    StackFrame { s1 with stack := s1.stack.tail } s := by
  obtain ⟨hlen, hdrop, horig⟩ := h
  simp only at hlen hdrop horig
  refine ⟨?_, ?_, horig⟩
  · simp only [List.length_tail, hlen, List.length_cons]
    omega
  · have h1 : s1.stack.drop 2 = s.stack.drop 1 := by
      simpa using hdrop
    calc s1.stack.tail.drop 2 = (s1.stack.drop 1).drop 2 := by rw [List.drop_one]
      _ = s1.stack.drop 3 := by rw [List.drop_drop]
      _ = (s1.stack.drop 2).drop 1 := by rw [List.drop_drop]
      _ = (s.stack.drop 1).drop 1 := by rw [h1]
      _ = s.stack.drop 2 := by rw [List.drop_drop]

theorem stackFrame_unwrapFn (s : MState) (d : Option MergeD) :
    StackFrame (unwrapFn s d).2 s := by
  unfold unwrapFn
  cases h : s.stack with
  | nil => refine ⟨?_, ?_, rfl⟩ <;> simp [setTop, h]
  | cons a rest =>
    cases rest with
    | nil => refine ⟨?_, ?_, rfl⟩ <;> simp [setTop, topCtx, h]
    | cons b rest2 => refine ⟨?_, ?_, rfl⟩ <;> simp [h]

theorem frame_mutual :
    (∀ p s, StackFrame (runProg p s) s) ∧
    (∀ op s, StackFrame (runOp op s) s) ∧
    (∀ cm key s, StackFrame (selectFromMap cm key s) s) ∧
    (∀ t s, StackFrame (applyMatchedCase t s) s) := by
  apply runProg.mutual_induct
    (fun p s => StackFrame (runProg p s) s)
    (fun op s => StackFrame (runOp op s) s)
    (fun cm key s => StackFrame (selectFromMap cm key s) s)
    (fun t s => StackFrame (applyMatchedCase t s) s)
  case case1 =>
    intro k s
    simpa [applyMatchedCase] using stackFrame_matched s k
  case case2 =>
    intro body s ih
    simp only [applyMatchedCase]
    exact stackFrame_popPush s ih
  case case3 =>
    intro x s
    simpa [selectFromMap] using StackFrame.refl s
  case case4 =>
    intro t rest key s htr ih
    simpa [selectFromMap, htr] using ih
  case case5 =>
    intro t rest key s htr
    simpa [selectFromMap, htr] using StackFrame.refl s
  case case6 =>
    intro k t rest key s hk ih
    simpa [selectFromMap, hk] using ih
  case case7 =>
    intro s delta
    simpa [runOp] using stackFrame_setTop s (recMerge (topCtx s) delta)
  case case8 =>
    intro s
    simpa [runOp] using StackFrame.refl s
  case case9 =>
    intro f s
    simpa [runOp] using stackFrame_setTop s (f (topCtx s))
  case case10 =>
    intro body s hm
    simp only [runOp]
    rw [if_pos hm]
    exact StackFrame.refl s
  case case11 =>
    intro body s hm ih
    simp only [runOp]
    rw [if_neg hm]
    exact stackFrame_popPush s ih
  case case12 =>
    intro d s
    simpa [runOp] using stackFrame_unwrapFn s d
  case case13 =>
    intro g t s hm
    simp only [runOp]
    rw [if_pos hm]
    exact StackFrame.refl s
  case case14 =>
    intro t s hm v hv ih
    simp only [runOp, eq_false hm, if_false, hv.1, hv.2]
    simpa [hv.1, hv.2] using ih
  case case15 =>
    intro t s hm v hv hobj
    simp only [runOp, eq_false hm, if_false]
    rw [if_neg hv, if_pos hobj]
    exact StackFrame.refl s
  case case16 =>
    intro t s hm v hv hobj
    simp only [runOp, eq_false hm, if_false]
    rw [if_neg hv, if_neg hobj]
    exact StackFrame.refl s
  case case17 =>
    intro t s hm p hp ih
    simp only [runOp, eq_false hm, if_false, hp, if_true]
    exact ih
  case case18 =>
    intro t s hm p hp
    simp only [runOp, eq_false hm, if_false]
    rw [if_neg (by simpa using hp)]
    exact StackFrame.refl s
  case case19 =>
    intro t s hm ps hlen hall ih
    simp only [runOp, eq_false hm, if_false, if_pos hlen, hall, if_true]
    exact ih
  case case20 =>
    intro t s hm ps hlen hall
    simp only [runOp, eq_false hm, if_false, if_pos hlen]
    rw [if_neg (by simpa using hall)]
    exact StackFrame.refl s
  case case21 =>
    intro t s hm ps hlen ih
    simp only [runOp, eq_false hm, if_false, if_neg hlen]
    exact ih
  case case22 =>
    intro sel cm s hm
    cases cm <;> (simp only [runOp]; rw [if_pos hm]) <;> exact StackFrame.refl s
  case case23 =>
    intro sel s hm hkey m ih
    simp only [runOp]
    rw [if_neg hm, if_pos hkey]
    exact ih
  case case24 =>
    intro sel s hm hkey
    simp only [runOp]
    rw [if_neg hm, if_pos hkey]
    exact stackFrame_matched s _
  case case25 =>
    intro sel cm s hm hkey
    cases cm <;> (simp only [runOp]; rw [if_neg hm, if_neg hkey]) <;> exact StackFrame.refl s
  case case26 =>
    intro k s hm
    simp only [runOp]
    rw [if_pos hm]
    exact StackFrame.refl s
  case case27 =>
    intro k s hm
    simp only [runOp, eq_false hm, if_false]
    exact stackFrame_matched s k
  case case28 =>
    intro s
    simpa [runProg] using StackFrame.refl s
  case case29 =>
    intro op rest s ih1 ih2
    simp only [runProg]
    exact StackFrame.trans ih2 ih1

theorem setTop_tail (st : List Rec) (c : Rec) : (setTop st c).tail = st.tail := by
  cases st <;> simp [setTop]

theorem pushRun_tail_eq (body : Program) (s : MState) :
    (runProg body { s with stack := topCtx s :: s.stack }).stack.tail.tail = s.stack.tail := by
  have hfr := frame_mutual.1 body { s with stack := topCtx s :: s.stack }
  have hdrop : (runProg body { s with stack := topCtx s :: s.stack }).stack.drop 2
      = s.stack.drop 1 := by
    have := hfr.2.1
    simpa using this
  calc (runProg body { s with stack := topCtx s :: s.stack }).stack.tail.tail
      = (runProg body { s with stack := topCtx s :: s.stack }).stack.drop 2 := by
        rw [← List.drop_one, ← List.drop_one, List.drop_drop]
    _ = s.stack.drop 1 := hdrop
    _ = s.stack.tail := List.drop_one _

theorem tail_mutual :
    (∀ p s, progNoUnwrap p = true → (runProg p s).stack.tail = s.stack.tail) ∧
    (∀ op s, opNotUnwrap op = true → (runOp op s).stack.tail = s.stack.tail) ∧
    (∀ cm key s, (selectFromMap cm key s).stack.tail = s.stack.tail) ∧
    (∀ t s, (applyMatchedCase t s).stack.tail = s.stack.tail) := by
  apply runProg.mutual_induct
    (fun p s => progNoUnwrap p = true → (runProg p s).stack.tail = s.stack.tail)
    (fun op s => opNotUnwrap op = true → (runOp op s).stack.tail = s.stack.tail)
    (fun cm key s => (selectFromMap cm key s).stack.tail = s.stack.tail)
    (fun t s => (applyMatchedCase t s).stack.tail = s.stack.tail)
  case case1 =>
    intro k s
    simp [applyMatchedCase]
  case case2 =>
    intro body s _
    simp only [applyMatchedCase]
    exact pushRun_tail_eq body s
  case case3 =>
    intro x s
    simp [selectFromMap]
  case case4 =>
    intro t rest key s htr ih
    simpa [selectFromMap, htr] using ih
  case case5 =>
    intro t rest key s htr
    simp [selectFromMap, htr]
  case case6 =>
    intro k t rest key s hk ih
    simpa [selectFromMap, hk] using ih
  case case7 =>
    intro s delta _
    simp only [runOp]
    exact setTop_tail s.stack _
  case case8 =>
    intro s _
    simp [runOp]
  case case9 =>
    intro f s _
    simp only [runOp]
    exact setTop_tail s.stack _
  case case10 =>
    intro body s hm _
    simp only [runOp]
    rw [if_pos hm]
  case case11 =>
    intro body s hm _ _
    simp only [runOp]
    rw [if_neg hm]
    exact pushRun_tail_eq body s
  case case12 =>
    intro d s habs
    exact absurd habs (by simp [opNotUnwrap])
  case case13 =>
    intro g t s hm _
    cases g <;> (simp only [runOp]; rw [if_pos hm])
  case case14 =>
    intro t s hm v hv ih _
    simp only [runOp]
    rw [if_neg hm, if_pos hv]
    exact ih
  case case15 =>
    intro t s hm v hv hobj _
    simp only [runOp]
    rw [if_neg hm, if_neg hv, if_pos hobj]
  case case16 =>
    intro t s hm v hv hobj _
    simp only [runOp]
    rw [if_neg hm, if_neg hv, if_neg hobj]
  case case17 =>
    intro t s hm p hp ih _
    simp only [runOp]
    rw [if_neg hm, if_pos hp]
    exact ih
  case case18 =>
    intro t s hm p hp _
    simp only [runOp]
    rw [if_neg hm, if_neg hp]
  case case19 =>
    intro t s hm ps hlen hall ih _
    simp only [runOp]
    rw [if_neg hm, if_pos hlen, if_pos hall]
    exact ih
  case case20 =>
    intro t s hm ps hlen hall _
    simp only [runOp]
    rw [if_neg hm, if_pos hlen, if_neg (by simpa using hall)]
  case case21 =>
    intro t s hm ps hlen ih _
    simp only [runOp]
    rw [if_neg hm, if_neg hlen]
    exact ih
  case case22 =>
    intro sel cm s hm _
    cases cm <;> (simp only [runOp]; rw [if_pos hm])
  case case23 =>
    intro sel s hm hkey m ih _
    simp only [runOp]
    rw [if_neg hm, if_pos hkey]
    exact ih
  case case24 =>
    intro sel s hm hkey _
    simp only [runOp]
    rw [if_neg hm, if_pos hkey]
  case case25 =>
    intro sel cm s hm hkey _
    cases cm <;> (simp only [runOp]; rw [if_neg hm, if_neg hkey])
  case case26 =>
    intro k s hm _
    simp only [runOp]
    rw [if_pos hm]
  case case27 =>
    intro k s hm _
    simp only [runOp]
    rw [if_neg hm]
  case case28 =>
    intro s _
    simp [runProg]
  case case29 =>
    intro op rest s ih1 ih2 hno
    have hsplit : opNotUnwrap op = true ∧ progNoUnwrap rest = true := by
      simpa [progNoUnwrap, Bool.and_eq_true] using hno
    simp only [runProg]
    rw [ih2 hsplit.2, ih1 hsplit.1]

theorem runProg_stack_length (p : Program) (s : MState) :
    (runProg p s).stack.length = s.stack.length := (frame_mutual.1 p s).1

theorem runProg_origCtx (p : Program) (s : MState) :
    (runProg p s).origCtx = s.origCtx := (frame_mutual.1 p s).2.2

theorem selectFromMap_eq_find :
    ∀ (cm : CaseMap) (key : String) (s : MState),
    selectFromMap cm key s =
      match caseMapFind cm key with
      | none => s
      | some t => if targetTruthy t then applyMatchedCase t s else s
  | .nil, key, s => by simp [selectFromMap, caseMapFind]
  | .cons k t rest, key, s => by
      by_cases hk : k = key
      · simp [selectFromMap, caseMapFind, hk]
      · simp only [selectFromMap, caseMapFind, if_neg hk]
        exact selectFromMap_eq_find rest key s

theorem recGet_cons (p : String × JSVal) (r : Rec) (k : String) :
    recGet (p :: r) k = if p.1 = k then p.2 else recGet r k := by
  by_cases hp : p.1 = k <;> simp [recGet, List.find?, hp]

theorem recGet_recMerge (a b : Rec) (k : String) :
    recGet (recMerge a b) k = if recHas b k then recGet b k else recGet a k := by
  induction a with
  | nil =>
      cases hb : b.find? (fun p => p.1 = k) with
      | none => simp [recMerge, recGet, recHas, hb]
      | some x => simp [recMerge, recGet, recHas, hb]
  | cons p a ih =>
      cases hf : b.find? (fun q => q.1 = p.1) with
      | none =>
          have hmerge : recMerge (p :: a) b = p :: recMerge a b := by
            simp only [recMerge, List.filter_cons]
            rw [if_pos (by simp [hf])]
            rw [List.cons_append]
          rw [hmerge, recGet_cons]
          by_cases hpk : p.1 = k
          · subst hpk
            have hbk : recHas b p.1 = false := by simp [recHas, hf]
            simp [hbk, recGet_cons]
          · rw [if_neg hpk, ih]
            conv_rhs => rw [recGet_cons]
            rw [if_neg hpk]
      | some x =>
          have hmerge : recMerge (p :: a) b = recMerge a b := by
            simp only [recMerge, List.filter_cons]
            rw [if_neg (by simp [hf])]
          rw [hmerge, ih]
          by_cases hpk : p.1 = k
          · subst hpk
            have hbk : recHas b p.1 = true := by simp [recHas, hf]
            simp [hbk]
          · conv_rhs => rw [recGet_cons]
            rw [if_neg hpk]

/-!
Claim theorems.
-/

/-- Claim C1, counterexample. The claim states that once the case slot has
been set by a successful `matchCase` call, every subsequent `matchCase`
call is a no-op and leaves the committed case unchanged. Here a successful
`matchCase(true, "")` sets the slot to the empty string, yet a subsequent
`matchCase(true, "B")` overwrites it, and the chain resolves to "B"
instead of "": the engine tests the slot for truthiness, not for having
been set. -/
theorem claim_C1_counterexample :
    (runOp (.matchCase (.val (.boolean true)) (.key (.string "")))
        (matcher none)).matchedCase = JSVal.string "" ∧
    runOp (.matchCase (.val (.boolean true)) (.key (.string "B")))
        (runOp (.matchCase (.val (.boolean true)) (.key (.string "")))
          (matcher none)) ≠
      runOp (.matchCase (.val (.boolean true)) (.key (.string "")))
        (matcher none) ∧
    resolve
      (runProg
        (.cons (.matchCase (.val (.boolean true)) (.key (.string "")))
          (.cons (.matchCase (.val (.boolean true)) (.key (.string "B"))) .nil))
        (matcher none)) none (.val .undefined) = JSVal.string "B" := by
  decide

/-- Claim C1, amended: once the case slot holds a truthy case key, every
subsequent `matchCase` and `selectCase` call is a no-op (its guard or
selector is not consulted: the state is unchanged for every guard and
selector) and the committed case is unchanged, so with truthy case keys
the committed case equals the one set by the first satisfied guard; in
particular matchCase(true,"A").matchCase(true,"B") resolves to "A". -/
theorem claim_C1_amended (s : MState) (g : Guard) (t : CaseTarget)
    (sel : Rec → JSVal) (cm : Option CaseMap)
    (h : s.matchedCase.truthy = true) :
    runOp (.matchCase g t) s = s ∧
    runOp (.selectCase sel cm) s = s ∧
    resolve
      (runProg
        (.cons (.matchCase (.val (.boolean true)) (.key (.string "A")))
          (.cons (.matchCase (.val (.boolean true)) (.key (.string "B"))) .nil))
        (matcher none)) none (.val .undefined) = JSVal.string "A" := by
  refine ⟨?_, ?_, by decide⟩
  · cases g <;> (simp only [runOp]; rw [if_pos h])
  · cases cm <;> (simp only [runOp]; rw [if_pos h])

/-- Claim C1, witness: the amended no-op facts at a state whose slot holds
the truthy key "A", with a predicate guard and a selector that would both
succeed. -/
theorem claim_C1_witness :
    runOp (.matchCase (.fpred (fun _ => .boolean true)) (.key (.string "C")))
        { matchedCase := JSVal.string "A", stack := [[]], origCtx := none } =
      { matchedCase := JSVal.string "A", stack := [[]], origCtx := none } ∧
    runOp (.selectCase (fun _ => .string "C") none)
        { matchedCase := JSVal.string "A", stack := [[]], origCtx := none } =
      { matchedCase := JSVal.string "A", stack := [[]], origCtx := none } := by
  have h := claim_C1_amended
    { matchedCase := JSVal.string "A", stack := [[]], origCtx := none }
    (.fpred (fun _ => .boolean true)) (.key (.string "C"))
    (fun _ => .string "C") none (by decide)
  exact ⟨h.1, h.2.1⟩

/-- Claim C6, counterexample. The claim states that `otherwise(caseKey)`
commits exactly when no case has been resolved yet and is a no-op
thereafter. Here `otherwise("")` commits the empty string (visible: a
plain resolve returns ""), yet a subsequent `otherwise("B")` commits
again, because the engine tests the slot for truthiness rather than for
having been set. -/
theorem claim_C6_counterexample :
    (runOp (.otherwise (.string "")) (matcher none)).matchedCase =
      JSVal.string "" ∧
    resolve (runOp (.otherwise (.string "")) (matcher none)) none
      (.val .undefined) = JSVal.string "" ∧
    (runOp (.otherwise (.string "B"))
        (runOp (.otherwise (.string "")) (matcher none))).matchedCase =
      JSVal.string "B" := by
  decide

/-- Claim C6, amended: `otherwise(caseKey)` assigns `caseKey` to the case
slot exactly when the slot currently holds a falsy value (in particular
when it is still unset), and is a no-op whenever the slot holds a truthy
key; the two examples of the claim hold:
matchCase(true,"A").otherwise("B") resolves to "A", and otherwise("B")
alone resolves to "B". -/
theorem claim_C6_amended (s : MState) (k : JSVal) :
    (s.matchedCase.truthy = false →
      runOp (.otherwise k) s = { s with matchedCase := k }) ∧
    (s.matchedCase.truthy = true → runOp (.otherwise k) s = s) ∧
    resolve
      (runProg
        (.cons (.matchCase (.val (.boolean true)) (.key (.string "A")))
          (.cons (.otherwise (.string "B")) .nil)) (matcher none)) none
      (.val .undefined) = JSVal.string "A" ∧
    resolve (runProg (.cons (.otherwise (.string "B")) .nil) (matcher none))
      none (.val .undefined) = JSVal.string "B" := by
  refine ⟨?_, ?_, by decide, by decide⟩
  · intro h
    simp only [runOp]
    rw [if_neg (by simp [h])]
  · intro h
    simp only [runOp]
    rw [if_pos h]

/-- Claim C6, witness: the amended statement applied at an unset slot and
at a slot holding the truthy key "A". -/
theorem claim_C6_witness :
    runOp (.otherwise (.string "B")) (matcher none) =
      { matcher none with matchedCase := JSVal.string "B" } ∧
    runOp (.otherwise (.string "B"))
        { matchedCase := JSVal.string "A", stack := [[]], origCtx := none } =
      { matchedCase := JSVal.string "A", stack := [[]], origCtx := none } := by
  refine ⟨(claim_C6_amended (matcher none) (.string "B")).1 (by decide), ?_⟩
  exact (claim_C6_amended
    { matchedCase := JSVal.string "A", stack := [[]], origCtx := none }
    (.string "B")).2.1 (by decide)

/-- Claim C9: the engine is total and non-throwing on the documented
shapes. Every operation of the model is a total function; the context
stack keeps its depth across any chain of calls, so on an evaluator
created by `matcher` the depth is always 1 at the root and every context
read is a genuine read; resolving with no matched case returns the absent
value `undefined` rather than failing. -/
theorem claim_C9 :
    (∀ (p : Program) (context : Option Rec),
      (runProg p (matcher context)).stack.length = 1) ∧
    (∀ (p : Program) (s : MState),
      (runProg p s).stack.length = s.stack.length) ∧
    (∀ (context : Option Rec),
      resolve (matcher context) none (.val .undefined) = JSVal.undefined) := by
  refine ⟨?_, runProg_stack_length, ?_⟩
  · intro p context
    rw [runProg_stack_length]
    simp [matcher]
  · intro context
    simp [resolve, matcher]

/-- Claim C10: a guard whose runtime type is neither boolean, function,
nor object (a string, a number, undefined) makes `matchCase` a silent
no-op: nothing is committed and the whole evaluator state, case slot and
every context layer, is unchanged. -/
theorem claim_C10 (s : MState) (v : JSVal) (t : CaseTarget)
    (h1 : v.typeofStr ≠ "boolean") (h2 : v.typeofStr ≠ "object") :
    runOp (.matchCase (.val v) t) s = s := by
  by_cases hm : s.matchedCase.truthy = true
  · simp only [runOp]
    rw [if_pos hm]
  · simp only [runOp]
    rw [if_neg hm, if_neg (fun hc => h1 hc.1), if_neg h2]

/-- Claim C10, witness: a string guard, a number guard and an undefined
guard, each on a fresh evaluator, leave the state unchanged. -/
theorem claim_C10_witness :
    runOp (.matchCase (.val (.string "x")) (.key (.string "A")))
      (matcher none) = matcher none ∧
    runOp (.matchCase (.val (.number 7)) (.key (.string "A")))
      (matcher none) = matcher none ∧
    runOp (.matchCase (.val .undefined) (.key (.string "A")))
      (matcher none) = matcher none :=
  ⟨claim_C10 (matcher none) (.string "x") (.key (.string "A"))
      (by decide) (by decide),
   claim_C10 (matcher none) (.number 7) (.key (.string "A"))
      (by decide) (by decide),
   claim_C10 (matcher none) .undefined (.key (.string "A"))
      (by decide) (by decide)⟩

/-- Claim C4, counterexample. The claim states that `forward(delegate)` is
a no-op, the delegate never invoked, when a case is already resolved.
Here a successful `matchCase(true, "")` has committed the empty string
(a resolved case under the specification, which says the slot is set
once), yet `forward` still invokes its delegate, which overwrites the
slot with "X": the engine tests the slot for truthiness, not for having
been set. -/
theorem claim_C4_counterexample :
    (runOp (.matchCase (.val (.boolean true)) (.key (.string "")))
        (matcher none)).matchedCase = JSVal.string "" ∧
    (runOp (.forward (.cons (.otherwise (.string "X")) .nil))
        (runOp (.matchCase (.val (.boolean true)) (.key (.string "")))
          (matcher none))).matchedCase = JSVal.string "X" := by
  decide

/-- Claim C4, amended: `forward(delegate)` is a no-op, the delegate never
invoked, when the case slot holds a truthy key. Otherwise it pushes a
copy of the current top context, runs the delegate body, and pops the
layer: a case committed inside the delegate remains visible to the parent
(the resulting case slot equals the one produced by the delegate run on
the pushed state), and when the delegate body issues no direct `unwrap`
the whole context stack is restored, so branch context changes are
invisible to the parent; in particular after
matcher(\x7bv:1\x7d).forward(b =\x3e b.withContext(\x7bv:2\x7d)) the
outer context still has v = 1. -/
theorem claim_C4_amended (s : MState) (body : Program) :
    (s.matchedCase.truthy = true → runOp (.forward body) s = s) ∧
    (s.matchedCase.truthy = false →
      (runOp (.forward body) s).matchedCase =
        (runProg body { s with stack := topCtx s :: s.stack }).matchedCase ∧
      (progNoUnwrap body = true →
        (runOp (.forward body) s).stack = s.stack)) ∧
    topCtx (runOp (.forward (.cons (.withContext (some [("v", .number 2)])) .nil))
      (matcher (some [("v", .number 1)]))) = [("v", JSVal.number 1)] := by
  refine ⟨?_, ?_, by decide⟩
  · intro h
    simp only [runOp]
    rw [if_pos h]
  · intro h
    constructor
    · simp only [runOp]
      rw [if_neg (by simp [h])]
    · intro hnu
      simp only [runOp]
      rw [if_neg (by simp [h])]
      have htail := tail_mutual.1 body { s with stack := topCtx s :: s.stack } hnu
      simpa using htail

/-- Claim C4, witness: the amended statement applied concretely: a truthy
slot makes `forward` a no-op; on an unresolved evaluator a delegate that
commits "Z" is visible to the parent while the parent context survives. -/
theorem claim_C4_witness :
    runOp (.forward (.cons (.otherwise (.string "Z")) .nil))
        { matchedCase := JSVal.string "A", stack := [[]], origCtx := none } =
      { matchedCase := JSVal.string "A", stack := [[]], origCtx := none } ∧
    (runOp (.forward (.cons (.otherwise (.string "Z")) .nil))
        (matcher (some [("v", .number 1)]))).matchedCase =
      (runProg (.cons (.otherwise (.string "Z")) .nil)
        { matcher (some [("v", .number 1)]) with
            stack := topCtx (matcher (some [("v", .number 1)])) ::
              (matcher (some [("v", .number 1)])).stack }).matchedCase ∧
    (runOp (.forward (.cons (.otherwise (.string "Z")) .nil))
        (matcher (some [("v", .number 1)]))).stack =
      (matcher (some [("v", .number 1)])).stack := by
  refine ⟨(claim_C4_amended _ _).1 (by decide), ?_, ?_⟩
  · exact ((claim_C4_amended (matcher (some [("v", .number 1)]))
      (.cons (.otherwise (.string "Z")) .nil)).2.1 (by decide)).1
  · exact ((claim_C4_amended (matcher (some [("v", .number 1)]))
      (.cons (.otherwise (.string "Z")) .nil)).2.1 (by decide)).2 (by decide)

/-- Claim C5: inside a branch scope (stack depth above one) `unwrap` reads
the current top context, applies the merge delegate to the pair of the
top context and the parent layer when one is supplied, writes the
resulting value as the parent layer one level below the top, and returns
that value, leaving the case slot untouched; at root scope (depth one) it
returns the current context, or the merge delegate result computed with
the original caller-supplied context as the parent argument, and without
a delegate it leaves the state unchanged. -/
theorem claim_C5 (s : MState) (d : Option MergeD) (a b : Rec)
    (rest : List Rec) :
    (s.stack = a :: b :: rest →
      (unwrapFn s d).1 =
        (match d with | none => a | some f => f a (some b)) ∧
      (unwrapFn s d).2.stack = a :: (unwrapFn s d).1 :: rest ∧
      (unwrapFn s d).2.matchedCase = s.matchedCase) ∧
    (s.stack = [a] →
      (unwrapFn s d).1 =
        (match d with | none => a | some f => f a s.origCtx) ∧
      (unwrapFn s d).2.stack = [(unwrapFn s d).1] ∧
      (d = none → unwrapFn s d = (a, s))) := by
  constructor
  · intro h
    cases d <;> simp [unwrapFn, h]
  · intro h
    cases d with
    | none =>
        refine ⟨by simp [unwrapFn, h, topCtx], by simp [unwrapFn, h, topCtx, setTop], ?_⟩
        intro _
        have hs : ({ s with stack := [a] } : MState) = s := by rw [← h]
        simp [unwrapFn, h, topCtx, setTop, hs]
    | some f =>
        refine ⟨by simp [unwrapFn, h, topCtx], by simp [unwrapFn, h, topCtx, setTop], ?_⟩
        intro hcontra
        cases hcontra

/-- Claim C5, witness: a branch-scope state with two layers, with and
without a merge delegate, and a root-scope state with a delegate reading
the original caller context. -/
theorem claim_C5_witness :
    (unwrapFn ⟨JSVal.undefined, [[("a", JSVal.number 1)], [("b", JSVal.number 2)]], some [("b", JSVal.number 2)]⟩ none).2.stack =
      [[("a", JSVal.number 1)], [("a", JSVal.number 1)]] ∧
    (unwrapFn ⟨JSVal.undefined, [[("a", JSVal.number 1)], [("b", JSVal.number 2)]], some [("b", JSVal.number 2)]⟩
      (some (fun c parent => c ++ parent.getD []))).1 =
      [("a", JSVal.number 1), ("b", JSVal.number 2)] ∧
    (unwrapFn (matcher (some [("r", JSVal.number 3)]))
      (some (fun c parent => c ++ parent.getD []))).1 =
      [("r", JSVal.number 3), ("r", JSVal.number 3)] := by
  refine ⟨?_, ?_, ?_⟩
  · have h := (claim_C5 ⟨JSVal.undefined, [[("a", JSVal.number 1)], [("b", JSVal.number 2)]], some [("b", JSVal.number 2)]⟩ none
        [("a", JSVal.number 1)] [("b", JSVal.number 2)] []).1 rfl
    rw [h.2.1, h.1]
  · have h := (claim_C5 ⟨JSVal.undefined, [[("a", JSVal.number 1)], [("b", JSVal.number 2)]], some [("b", JSVal.number 2)]⟩
        (some (fun c parent => c ++ parent.getD []))
        [("a", JSVal.number 1)] [("b", JSVal.number 2)] []).1 rfl
    rw [h.1]
    decide
  · have h := (claim_C5 (matcher (some [("r", JSVal.number 3)]))
        (some (fun c parent => c ++ parent.getD []))
        [("r", JSVal.number 3)] [] []).2 rfl
    rw [h.1]
    decide

/-- Claim C7: `withContext` with a null or absent argument leaves the
state unchanged; with a record argument it replaces the top context by
the shallow merge of the old top with the delta, in which the keys of the
delta take precedence while non-overlapping keys of both sides are
preserved; the merge is a fresh value computed from its two inputs (the
model is pure, so neither the caller record nor the delta is mutated) and
the recorded original caller argument is untouched. -/
theorem claim_C7 (s : MState) (delta : Rec) (c : Rec) (rest : List Rec)
    (h : s.stack = c :: rest) :
    runOp (.withContext none) s = s ∧
    runOp (.withContext (some delta)) s =
      { s with stack := recMerge c delta :: rest } ∧
    (∀ k, recGet (recMerge c delta) k =
      if recHas delta k then recGet delta k else recGet c k) ∧
    (runOp (.withContext (some delta)) s).origCtx = s.origCtx ∧
    (runOp (.withContext (some delta)) s).matchedCase = s.matchedCase := by
  refine ⟨by simp [runOp], ?_, fun k => recGet_recMerge c delta k,
    by simp [runOp], by simp [runOp]⟩
  simp [runOp, h, topCtx, setTop]

/-- Claim C7, witness: the claim applied to matcher(\x7bfoo:11\x7d): a
null extension is a no-op, and extending with \x7bbar:22\x7d yields a top
context with both foo = 11 and bar = 22. -/
theorem claim_C7_witness :
    runOp (.withContext none) (matcher (some [("foo", JSVal.number 11)])) =
      matcher (some [("foo", JSVal.number 11)]) ∧
    recGet (recMerge [("foo", JSVal.number 11)] [("bar", JSVal.number 22)])
      "foo" = JSVal.number 11 ∧
    recGet (recMerge [("foo", JSVal.number 11)] [("bar", JSVal.number 22)])
      "bar" = JSVal.number 22 := by
  have h := claim_C7 (matcher (some [("foo", JSVal.number 11)]))
    [("bar", JSVal.number 22)] [("foo", JSVal.number 11)] [] rfl
  refine ⟨h.1, ?_, ?_⟩
  · rw [h.2.2.1 "foo"]
    decide
  · rw [h.2.2.1 "bar"]
    decide

/-- Claim C2, counterexample. The claim states that a pattern key with no
matching context key fails the match. Here the pattern declares the key
"foo" with the literal leaf `undefined`, the context (absent, so an empty
record) has no key "foo", yet the match succeeds and commits "A": the
missing key reads as `undefined`, which is identity-equal to the
`undefined` leaf. -/
theorem claim_C2_counterexample :
    recHas (topCtx (matcher none)) "foo" = false ∧
    (runOp (.matchCase (.pattern [("foo", .lit .undefined)])
        (.key (.string "A"))) (matcher none)).matchedCase =
      JSVal.string "A" := by
  decide

/-- Claim C2, amended: with no truthy case committed, a null pattern never
matches; an empty record pattern matches every context including an
absent one; a non-empty pattern commits exactly when every declared key
passes its leaf test, where a literal leaf compares the context value by
identity (`Object.is`: `NaN` equal to itself, `+0` and `-0` distinct) and
a comparator leaf applies its `test` capability to the context value; a
declared key with no matching context key contributes the value
`undefined`, so it fails unless the leaf is literally `undefined` or a
comparator accepting `undefined`. -/
theorem claim_C2_amended (s : MState) (t : CaseTarget) (ps : Pattern)
    (h : s.matchedCase.truthy = false) :
    runOp (.matchCase (.val .null) t) s = s ∧
    runOp (.matchCase (.pattern []) t) s = applyMatchedCase t s ∧
    ((∀ kl ∈ ps, patLeafTest (topCtx s) kl.1 kl.2 = true) →
      runOp (.matchCase (.pattern ps) t) s = applyMatchedCase t s) ∧
    (¬ (∀ kl ∈ ps, patLeafTest (topCtx s) kl.1 kl.2 = true) →
      runOp (.matchCase (.pattern ps) t) s = s) ∧
    (∀ (ctx : Rec) (k : String) (v : JSVal),
      patLeafTest ctx k (.lit v) = true ↔ recGet ctx k = v) ∧
    (∀ (ctx : Rec) (k : String) (tf : JSVal → JSVal),
      patLeafTest ctx k (.cmp tf) = (tf (recGet ctx k)).truthy) ∧
    (∀ (ctx : Rec) (k : String),
      recHas ctx k = false → recGet ctx k = JSVal.undefined) ∧
    patLeafTest [("foo", JSVal.nan)] "foo" (.lit .nan) = true ∧
    patLeafTest [("foo", JSVal.negZero)] "foo" (.lit (.number 0)) = false := by
  refine ⟨?_, ?_, ?_, ?_, ?_, ?_, ?_, by decide, by decide⟩
  · simp only [runOp]
    rw [if_neg (by simp [h]), if_neg (by decide), if_pos (by decide)]
  · simp only [runOp]
    rw [if_neg (by simp [h]), if_neg (by decide)]
  · intro hall
    have hb : ps.all (fun kl => patLeafTest (topCtx s) kl.1 kl.2) = true :=
      List.all_eq_true.mpr hall
    by_cases hlen : ps.length > 0
    · simp only [runOp]
      rw [if_neg (by simp [h]), if_pos hlen, if_pos hb]
    · simp only [runOp]
      rw [if_neg (by simp [h]), if_neg hlen]
  · intro hnall
    have hb : ps.all (fun kl => patLeafTest (topCtx s) kl.1 kl.2) = false := by
      cases hcase : ps.all (fun kl => patLeafTest (topCtx s) kl.1 kl.2)
      · rfl
      · exact absurd (List.all_eq_true.mp hcase) hnall
    have hlen : ps.length > 0 := by
      cases ps with
      | nil => exact absurd (by intro kl hkl; exact absurd hkl (List.not_mem_nil kl)) hnall
      | cons q qs => simp
    simp only [runOp]
    rw [if_neg (by simp [h]), if_pos hlen, if_neg (by simp [hb])]
  · intro ctx k v
    simp [patLeafTest]
  · intro ctx k tf
    rfl
  · intro ctx k hk
    have hnone : ctx.find? (fun p => p.1 = k) = none := by
      cases hcase : ctx.find? (fun p => p.1 = k) with
      | none => rfl
      | some q => rw [recHas, hcase] at hk; cases hk
    simp [recGet, hnone]

/-- Claim C2, witness: the amended statement applied to
matcher(\x7bfoo:"bar"\x7d): the matching pattern \x7bfoo:"bar"\x7d
commits, the failing pattern \x7bfoo:11\x7d does not, the null pattern
and the empty pattern behave as stated. -/
theorem claim_C2_witness :
    runOp (.matchCase (.val .null) (.key (.string "A")))
      (matcher (some [("foo", JSVal.string "bar")])) =
      matcher (some [("foo", JSVal.string "bar")]) ∧
    runOp (.matchCase (.pattern []) (.key (.string "A")))
      (matcher (some [("foo", JSVal.string "bar")])) =
      applyMatchedCase (.key (.string "A"))
        (matcher (some [("foo", JSVal.string "bar")])) ∧
    runOp (.matchCase (.pattern [("foo", .lit (.string "bar"))])
        (.key (.string "B"))) (matcher (some [("foo", JSVal.string "bar")])) =
      applyMatchedCase (.key (.string "B"))
        (matcher (some [("foo", JSVal.string "bar")])) ∧
    runOp (.matchCase (.pattern [("foo", .lit (.number 11))])
        (.key (.string "B"))) (matcher (some [("foo", JSVal.string "bar")])) =
      matcher (some [("foo", JSVal.string "bar")]) := by
  refine ⟨?_, ?_, ?_, ?_⟩
  · exact (claim_C2_amended (matcher (some [("foo", JSVal.string "bar")]))
      (.key (.string "A")) [] (by decide)).1
  · exact (claim_C2_amended (matcher (some [("foo", JSVal.string "bar")]))
      (.key (.string "A")) [] (by decide)).2.1
  · exact (claim_C2_amended (matcher (some [("foo", JSVal.string "bar")]))
      (.key (.string "B")) [("foo", .lit (.string "bar"))]
      (by decide)).2.2.1 (by decide)
  · exact (claim_C2_amended (matcher (some [("foo", JSVal.string "bar")]))
      (.key (.string "B")) [("foo", .lit (.number 11))]
      (by decide)).2.2.2.1 (by decide)

/-- Claim C3, counterexample. The claim states that for every resultMap,
resolve(resultMap) returns resultMap[committedKey]. Here the committed
key is "A" and the map binds "A" to the value 0, but resolve returns
`undefined` instead of 0: the engine replaces a falsy map entry by the
(absent) fallback. -/
theorem claim_C3_counterexample :
    (runProg (.cons (.matchCase (.val (.boolean true)) (.key (.string "A")))
        .nil) (matcher none)).matchedCase = JSVal.string "A" ∧
    resolve
      (runProg (.cons (.matchCase (.val (.boolean true)) (.key (.string "A")))
        .nil) (matcher none))
      (some [("A", ResolveEntry.val (JSVal.number 0))])
      (ResolveEntry.val JSVal.undefined) = JSVal.undefined := by
  decide

/-- Claim C3, amended: resolve() with no map returns the committed case
key (undefined when nothing matched and no otherwise was declared); with
a map, a truthy value entry at the committed key is returned and a
function entry is invoked with (currentContext, committedKey); when the
entry is absent or falsy the fallback is used instead, itself invoked
with (currentContext, committedKey) when it is a function, and an absent
fallback yields undefined. -/
theorem claim_C3_amended (s : MState) (m : ResolveMap) (fb : ResolveEntry)
    (k0 : String) (v : JSVal) (f g : Rec → JSVal → JSVal) (w : JSVal) :
    resolve s none fb = s.matchedCase ∧
    (m.find? (fun p => p.1 = s.matchedCase.keyStr) = some (k0, .val v) →
      v.truthy = true → resolve s (some m) fb = v) ∧
    (m.find? (fun p => p.1 = s.matchedCase.keyStr) = some (k0, .fn f) →
      resolve s (some m) fb = f (topCtx s) s.matchedCase) ∧
    (m.find? (fun p => p.1 = s.matchedCase.keyStr) = none → fb = .val w →
      resolve s (some m) fb = w) ∧
    (m.find? (fun p => p.1 = s.matchedCase.keyStr) = none → fb = .fn g →
      resolve s (some m) fb = g (topCtx s) s.matchedCase) ∧
    (m.find? (fun p => p.1 = s.matchedCase.keyStr) = some (k0, .val v) →
      v.truthy = false → fb = .val w → resolve s (some m) fb = w) ∧
    (m.find? (fun p => p.1 = s.matchedCase.keyStr) = some (k0, .val v) →
      v.truthy = false → fb = .fn g →
      resolve s (some m) fb = g (topCtx s) s.matchedCase) := by
  refine ⟨rfl, ?_, ?_, ?_, ?_, ?_, ?_⟩
  · intro hfind htr
    simp [resolve, hfind, entryTruthy, htr]
  · intro hfind
    simp [resolve, hfind, entryTruthy]
  · intro hfind hfb
    subst hfb
    simp [resolve, hfind, entryTruthy, JSVal.truthy]
  · intro hfind hfb
    subst hfb
    simp [resolve, hfind, entryTruthy, JSVal.truthy]
  · intro hfind htr hfb
    subst hfb
    simp [resolve, hfind, entryTruthy, htr]
  · intro hfind htr hfb
    subst hfb
    simp [resolve, hfind, entryTruthy, htr]

/-- Claim C3, witness: the amended statement applied to the committed key
"B" with the map A to 1, B to 2, C to 3, returning 2; and to a state
committed to "B" with a map lacking "B" and the fallback 0, returning 0;
and to a function entry receiving the context and the key. -/
theorem claim_C3_witness :
    resolve
      (runProg (.cons (.matchCase (.val (.boolean true)) (.key (.string "B")))
        .nil) (matcher none))
      (some [("A", ResolveEntry.val (JSVal.number 1)),
             ("B", ResolveEntry.val (JSVal.number 2)),
             ("C", ResolveEntry.val (JSVal.number 3))])
      (ResolveEntry.val JSVal.undefined) = JSVal.number 2 ∧
    resolve
      (runProg (.cons (.matchCase (.val (.boolean true)) (.key (.string "B")))
        .nil) (matcher none))
      (some [("A", ResolveEntry.val (JSVal.number 1))])
      (ResolveEntry.val (JSVal.number 0)) = JSVal.number 0 ∧
    resolve
      (runProg (.cons (.matchCase (.val (.boolean true)) (.key (.string "B")))
        .nil) (matcher none))
      (some [("B", ResolveEntry.fn (fun _ k => k))])
      (ResolveEntry.val JSVal.undefined) = JSVal.string "B" := by
  refine ⟨?_, ?_, ?_⟩
  · exact (claim_C3_amended
      (runProg (.cons (.matchCase (.val (.boolean true)) (.key (.string "B")))
        .nil) (matcher none))
      [("A", ResolveEntry.val (JSVal.number 1)),
       ("B", ResolveEntry.val (JSVal.number 2)),
       ("C", ResolveEntry.val (JSVal.number 3))]
      (ResolveEntry.val JSVal.undefined) "B" (JSVal.number 2)
      (fun _ _ => JSVal.undefined) (fun _ _ => JSVal.undefined)
      JSVal.undefined).2.1 rfl rfl
  · exact (claim_C3_amended
      (runProg (.cons (.matchCase (.val (.boolean true)) (.key (.string "B")))
        .nil) (matcher none))
      [("A", ResolveEntry.val (JSVal.number 1))]
      (ResolveEntry.val (JSVal.number 0)) "B" JSVal.undefined
      (fun _ _ => JSVal.undefined) (fun _ _ => JSVal.undefined)
      (JSVal.number 0)).2.2.2.1 rfl rfl
  · exact (claim_C3_amended
      (runProg (.cons (.matchCase (.val (.boolean true)) (.key (.string "B")))
        .nil) (matcher none))
      [("B", ResolveEntry.fn (fun _ k => k))]
      (ResolveEntry.val JSVal.undefined) "B" JSVal.undefined
      (fun _ k => k) (fun _ _ => JSVal.undefined)
      JSVal.undefined).2.2.1 rfl

/-- Claim C8: on an evaluator with no committed case, `selectCase`
evaluates the selector on the current context; a falsy result commits
nothing; a truthy result with no case map is committed directly as the
case key; with a case map, an absent or falsy entry commits nothing, a
truthy plain-key entry is committed, and a function entry runs as a
branch delegate in a nested scope (its body runs on a pushed copy of the
top context, which is popped afterwards). -/
theorem claim_C8 (s : MState) (sel : Rec → JSVal) (cm : Option CaseMap)
    (m : CaseMap) (v : JSVal) (body : Program)
    (h : s.matchedCase = JSVal.undefined) :
    ((sel (topCtx s)).truthy = false → runOp (.selectCase sel cm) s = s) ∧
    ((sel (topCtx s)).truthy = true →
      runOp (.selectCase sel none) s =
        { s with matchedCase := sel (topCtx s) } ∧
      (caseMapFind m (sel (topCtx s)).keyStr = none →
        runOp (.selectCase sel (some m)) s = s) ∧
      (caseMapFind m (sel (topCtx s)).keyStr = some (.key v) →
        v.truthy = false → runOp (.selectCase sel (some m)) s = s) ∧
      (caseMapFind m (sel (topCtx s)).keyStr = some (.key v) →
        v.truthy = true →
        runOp (.selectCase sel (some m)) s = { s with matchedCase := v }) ∧
      (caseMapFind m (sel (topCtx s)).keyStr = some (.branch body) →
        runOp (.selectCase sel (some m)) s =
          { runProg body { s with stack := topCtx s :: s.stack } with
              stack :=
                (runProg body
                  { s with stack := topCtx s :: s.stack }).stack.tail })) := by
  have hm : s.matchedCase.truthy = false := by rw [h]; rfl
  constructor
  · intro hkey
    cases cm <;> (simp only [runOp]; rw [if_neg (by simp [hm]), if_neg (by simp [hkey])])
  · intro hkey
    refine ⟨?_, ?_, ?_, ?_, ?_⟩
    · simp only [runOp]
      rw [if_neg (by simp [hm]), if_pos hkey]
    · intro hfind
      simp only [runOp]
      rw [if_neg (by simp [hm]), if_pos hkey, selectFromMap_eq_find, hfind]
    · intro hfind hv
      simp only [runOp]
      rw [if_neg (by simp [hm]), if_pos hkey, selectFromMap_eq_find, hfind]
      simp [targetTruthy, hv]
    · intro hfind hv
      simp only [runOp]
      rw [if_neg (by simp [hm]), if_pos hkey, selectFromMap_eq_find, hfind]
      simp [targetTruthy, hv, applyMatchedCase]
    · intro hfind
      simp only [runOp]
      rw [if_neg (by simp [hm]), if_pos hkey, selectFromMap_eq_find, hfind]
      simp [targetTruthy, applyMatchedCase]

/-- Claim C8, witness: the claim applied to matcher(\x7bkey:"bar"\x7d)
with the selector reading the key property: a falsy selector result
commits nothing, a direct selection commits "bar", and a map selection
commits "case2" through the entry at "bar". -/
theorem claim_C8_witness :
    runOp (.selectCase (fun ctx => recGet ctx "missing") none)
      (matcher (some [("key", JSVal.string "bar")])) =
      matcher (some [("key", JSVal.string "bar")]) ∧
    runOp (.selectCase (fun ctx => recGet ctx "key") none)
      (matcher (some [("key", JSVal.string "bar")])) =
      { matcher (some [("key", JSVal.string "bar")]) with
          matchedCase := JSVal.string "bar" } ∧
    runOp (.selectCase (fun ctx => recGet ctx "key")
        (some (.cons "foo" (.key (.string "case1"))
          (.cons "bar" (.key (.string "case2")) .nil))))
      (matcher (some [("key", JSVal.string "bar")])) =
      { matcher (some [("key", JSVal.string "bar")]) with
          matchedCase := JSVal.string "case2" } := by
  refine ⟨?_, ?_, ?_⟩
  · exact (claim_C8 (matcher (some [("key", JSVal.string "bar")]))
      (fun ctx => recGet ctx "missing") none .nil JSVal.undefined .nil
      rfl).1 (by decide)
  · have h := (claim_C8 (matcher (some [("key", JSVal.string "bar")]))
      (fun ctx => recGet ctx "key") none .nil JSVal.undefined .nil
      rfl).2 (by decide)
    exact h.1
  · have h := (claim_C8 (matcher (some [("key", JSVal.string "bar")]))
      (fun ctx => recGet ctx "key")
      (some (.cons "foo" (.key (.string "case1"))
        (.cons "bar" (.key (.string "case2")) .nil)))
      (.cons "foo" (.key (.string "case1"))
        (.cons "bar" (.key (.string "case2")) .nil))
      (JSVal.string "case2") .nil rfl).2 (by decide)
    exact h.2.2.2.1 rfl (by decide)
